import Mathlib

/-!
Verification of the self-healing SQL analyst state machine.

The repository ships the caller module advanced_examples.py, which drives a
compiled graph built by build_self_healing_analyst from the module
self_healing_sql_analyst.  That core module is not among the repository
sources here, so the state machine itself is modelled from the specification
(sections 3 and 4), keeping the field names and node names that the caller
advanced_examples.py uses: the state dictionary has fields question,
sql_query, query_result, error_message, error_history, attempt_count,
schema_info, explanation, status, timestamp; the nodes seen by the streaming
consumer are initialize, generate_sql, execute_sql, analyze_error,
generate_explanation and handle_failure.  (The first node is called init
here since Lean reserves that spelling in this development.)
-/

namespace SQLAnalyst

/-- Modelled from the spec: the status field of the Execution State, one of
pending, success, failed (spec section 3).  The core module
self_healing_sql_analyst is not in the repository sources. -/
inductive Status where
  | pending
  | success
  | failed
deriving DecidableEq

/-- Modelled from the spec: the nodes of the Orchestrator state machine
(spec section 4.1), named as the caller advanced_examples.py observes them
in the event stream; the schema-loading entry node (called initialize in
the source) is spelled init here, and done marks the terminal point after
generate_explanation or handle_failure. -/
inductive Node where
  | init
  | generate_sql
  | execute_sql
  | analyze_error
  | generate_explanation
  | handle_failure
  | done
deriving DecidableEq

/-- Modelled from the spec: the Execution Engine result, a success result
set or a structured failure with a message (spec section 6). -/
inductive ExecResult where
  | ok (rows : String)
  | fail (msg : String)
deriving DecidableEq

/-- Modelled from the spec: the Execution State record (spec section 3),
with the exact fields the caller advanced_examples.py passes as the initial
state dictionary. -/
structure AnalystState where
  question : String
  sql_query : String
  query_result : String
  error_message : String
  error_history : List String
  attempt_count : Nat
  schema_info : String
  explanation : String
  status : Status
  timestamp : String
deriving DecidableEq

/-- Modelled from the spec: the external collaborators (spec section 6),
each a deterministic response function.  The Execution Engine is indexed by
the attempt number so that every pattern of per-attempt success and failure
is representable; the clock supplies the timestamp stamped at each
transition, indexed by the transition counter. -/
structure Collaborators where
  describe_schema : String
  generate : String → String → String → String
  execute : Nat → String → ExecResult
  explain : String → String → String
  clock : Nat → String

/-- Modelled from the spec: the session configuration, recognizing
max_retries (spec section 6). -/
structure Config where
  max_retries : Nat
deriving DecidableEq

/-- Modelled from the spec: one step event of the Orchestrator, pairing the
executed node with the resulting state snapshot and the node that will
execute next (spec sections 4.3 and 4.4). -/
structure Event where
  node : Node
  snapshot : AnalystState
  next : Node
deriving DecidableEq

/-- Modelled from the spec: the per-node transition function of the
Orchestrator (spec section 4.1, transition rules 1 to 6).  Every transition
stamps the timestamp from the clock at the current transition counter k.
The analyze_error node first appends the current error to error_history and
only then evaluates the retry bound. -/
def step (C : Collaborators) (cfg : Config) (k : Nat) (s : AnalystState) :
    Node → AnalystState × Node
  | Node.init =>
      ({ s with schema_info := C.describe_schema, timestamp := C.clock k },
       Node.generate_sql)
  | Node.generate_sql =>
      ({ s with
          sql_query := C.generate s.question s.schema_info s.error_message
          timestamp := C.clock k },
       Node.execute_sql)
  | Node.execute_sql =>
      match C.execute (s.attempt_count + 1) s.sql_query with
      | ExecResult.ok rows =>
          ({ s with
              attempt_count := s.attempt_count + 1
              query_result := rows
              error_message := ""
              timestamp := C.clock k },
           Node.generate_explanation)
      | ExecResult.fail msg =>
          ({ s with
              attempt_count := s.attempt_count + 1
              error_message := msg
              timestamp := C.clock k },
           Node.analyze_error)
  | Node.analyze_error =>
      if s.attempt_count < cfg.max_retries then
        ({ s with
            error_history := s.error_history ++ [s.error_message]
            timestamp := C.clock k },
         Node.generate_sql)
      else
        ({ s with
            error_history := s.error_history ++ [s.error_message]
            timestamp := C.clock k },
         Node.handle_failure)
  | Node.generate_explanation =>
      ({ s with
          explanation := C.explain s.question s.query_result
          status := Status.success
          timestamp := C.clock k },
       Node.done)
  | Node.handle_failure =>
      ({ s with status := Status.failed, timestamp := C.clock k },
       Node.done)
  | Node.done => (s, Node.done)

/-- Modelled from the spec: the Orchestrator driving loop.  From transition
counter k it runs nodes one at a time, emitting one step event per node
visited, until the terminal point or until the fuel runs out; the fuel is a
bookkeeping bound that the termination theorem discharges. -/
def runFrom (C : Collaborators) (cfg : Config) :
    Nat → Nat → AnalystState → Node → List Event × AnalystState × Node
  | 0, _, s, n => ([], s, n)
  | fuel + 1, k, s, n =>
      if n = Node.done then ([], s, Node.done)
      else
        let p := step C cfg k s n
        let r := runFrom C cfg fuel (k + 1) p.1 p.2
        (⟨n, p.1, p.2⟩ :: r.1, r.2)

/-- The initial Execution State as advanced_examples.py builds it: all
fields empty or zero except the question, status pending. -/
def initState (q : String) : AnalystState :=
  { question := q, sql_query := "", query_result := "", error_message := ""
    error_history := [], attempt_count := 0, schema_info := ""
    explanation := "", status := Status.pending, timestamp := "" }

/-- Fuel sufficient for a whole session: one entry node, at most
max_retries rounds of three nodes, and a closing node. -/
def fuelFor (cfg : Config) : Nat := 3 * cfg.max_retries + 3

/-- Modelled from the spec: a full session run of the compiled graph on a
question, as app.invoke and app.stream perform it in advanced_examples.py,
returning the step events, the final state and the final node. -/
def run (C : Collaborators) (cfg : Config) (q : String) :
    List Event × AnalystState × Node :=
  runFrom C cfg (fuelFor cfg) 0 (initState q) Node.init

/-- The state after the schema-loading entry node. -/
def initSnap (C : Collaborators) (q : String) : AnalystState :=
  { initState q with schema_info := C.describe_schema, timestamp := C.clock 0 }

/-- The snapshots of the execute_sql events of a trace, one per invocation
of the Execution Engine, in traversal order. -/
def execSnaps : List Event → List AnalystState
  | [] => []
  | e :: r =>
      if e.node = Node.execute_sql then e.snapshot :: execSnaps r
      else execSnaps r

/-- The error messages carried by a list of snapshots. -/
def errMsgs (l : List AnalystState) : List String :=
  l.map AnalystState.error_message

/-- Modelled from the spec: the checkpoint sequence of a session, one
checkpoint per transition in traversal order, each a state snapshot
together with the name of the node that will execute next (spec section
4.3). -/
def checkpoints (evs : List Event) : List (AnalystState × Node) :=
  evs.map (fun e => (e.snapshot, e.next))

/-- Modelled from the spec: the checkpoint history interface of the
compiled app consumed by example_state_inspection in advanced_examples.py.
The LangGraph checkpointer behind it is not in the repository sources; per
the spec the store keeps snapshots in transition order, and the history
accessor hands them back newest first, which is why the caller reverses the
returned list before printing checkpoints in execution order. -/
def get_state_history (C : Collaborators) (cfg : Config) (q : String) :
    List (AnalystState × Node) :=
  (checkpoints (run C cfg q).1).reverse

theorem runFrom_zero (C : Collaborators) (cfg : Config) (k : Nat)
    (s : AnalystState) (n : Node) :
    runFrom C cfg 0 k s n = ([], s, n) := rfl

theorem runFrom_done (C : Collaborators) (cfg : Config) (fuel k : Nat)
    (s : AnalystState) :
    runFrom C cfg fuel k s Node.done = ([], s, Node.done) := by
  cases fuel <;> simp [runFrom]

theorem runFrom_step (C : Collaborators) (cfg : Config) (fuel k : Nat)
    (s : AnalystState) (n : Node) (hn : n ≠ Node.done) :
    runFrom C cfg (fuel + 1) k s n =
      ((⟨n, (step C cfg k s n).1, (step C cfg k s n).2⟩ : Event) ::
          (runFrom C cfg fuel (k + 1) (step C cfg k s n).1
            (step C cfg k s n).2).1,
       (runFrom C cfg fuel (k + 1) (step C cfg k s n).1
          (step C cfg k s n).2).2) := by
  simp [runFrom, hn]

theorem runFrom_len (C : Collaborators) (cfg : Config) :
    ∀ fuel k s n, (runFrom C cfg fuel k s n).1.length ≤ fuel := by
  intro fuel
  induction fuel with
  | zero => intro k s n; simp [runFrom]
  | succ f ih =>
      intro k s n
      by_cases hn : n = Node.done
      · subst hn; rw [runFrom_done]; simp
      · rw [runFrom_step C cfg f k s n hn]
        simpa using Nat.succ_le_succ (ih (k + 1) _ _)

theorem runFrom_mono (C : Collaborators) (cfg : Config) :
    ∀ fuel k s n, (runFrom C cfg fuel k s n).2.2 = Node.done →
      ∀ g, runFrom C cfg (fuel + g) k s n = runFrom C cfg fuel k s n := by
  intro fuel
  induction fuel with
  | zero =>
      intro k s n h g
      rw [runFrom_zero] at h ⊢
      simp only at h
      subst h
      rw [Nat.zero_add, runFrom_done]
  | succ f ih =>
      intro k s n h g
      by_cases hn : n = Node.done
      · subst hn; rw [runFrom_done, runFrom_done]
      · have harith : f + 1 + g = (f + g) + 1 := by omega
        rw [runFrom_step C cfg f k s n hn] at h ⊢
        rw [harith, runFrom_step C cfg (f + g) k s n hn]
        simp only at h
        rw [ih (k + 1) _ _ h g]

theorem runFrom_head (C : Collaborators) (cfg : Config) :
    ∀ fuel k s n e, (runFrom C cfg fuel k s n).1[0]? = some e →
      e.node = n := by
  intro fuel k s n e h
  match fuel with
  | 0 => rw [runFrom_zero] at h; simp at h
  | f + 1 =>
      by_cases hn : n = Node.done
      · subst hn; rw [runFrom_done] at h; simp at h
      · rw [runFrom_step C cfg f k s n hn] at h
        simp only [List.getElem?_cons_zero, Option.some.injEq] at h
        rw [← h]

theorem runFrom_chain (C : Collaborators) (cfg : Config) :
    ∀ fuel k s n i e1 e2, (runFrom C cfg fuel k s n).1[i]? = some e1 →
      (runFrom C cfg fuel k s n).1[i + 1]? = some e2 →
      e1.next = e2.node := by
  intro fuel
  induction fuel with
  | zero => intro k s n i e1 e2 h1 h2; rw [runFrom_zero] at h1; simp at h1
  | succ f ih =>
      intro k s n i e1 e2 h1 h2
      by_cases hn : n = Node.done
      · subst hn; rw [runFrom_done] at h1; simp at h1
      · rw [runFrom_step C cfg f k s n hn] at h1 h2
        cases i with
        | zero =>
            simp only [List.getElem?_cons_zero, Option.some.injEq] at h1
            simp only [List.getElem?_cons_succ] at h2
            rw [← h1]
            exact (runFrom_head C cfg f (k + 1) (step C cfg k s n).1
              (step C cfg k s n).2 e2 h2).symm
        | succ j =>
            simp only [List.getElem?_cons_succ] at h1 h2
            exact ih (k + 1) (step C cfg k s n).1 (step C cfg k s n).2 j
              e1 e2 h1 h2

theorem runFrom_resume (C : Collaborators) (cfg : Config) :
    ∀ fuel k s n i e, (runFrom C cfg fuel k s n).1[i]? = some e →
      runFrom C cfg (fuel - (i + 1)) (k + (i + 1)) e.snapshot e.next =
        ((runFrom C cfg fuel k s n).1.drop (i + 1),
         (runFrom C cfg fuel k s n).2) := by
  intro fuel
  induction fuel with
  | zero => intro k s n i e h; rw [runFrom_zero] at h; simp at h
  | succ f ih =>
      intro k s n i e h
      by_cases hn : n = Node.done
      · subst hn; rw [runFrom_done] at h; simp at h
      · rw [runFrom_step C cfg f k s n hn] at h ⊢
        cases i with
        | zero =>
            simp only [List.getElem?_cons_zero, Option.some.injEq] at h
            simp only [Nat.succ_sub_one, List.drop_succ_cons, List.drop_zero]
            rw [← h]
            simp
        | succ j =>
            simp only [List.getElem?_cons_succ] at h
            simp only [List.drop_succ_cons]
            have harith1 : f + 1 - (j + 1 + 1) = f - (j + 1) := by omega
            have harith2 : k + (j + 1 + 1) = (k + 1) + (j + 1) := by omega
            rw [harith1, harith2]
            exact ih (k + 1) (step C cfg k s n).1 (step C cfg k s n).2 j e h

theorem run3_ok (C : Collaborators) (cfg : Config) (fuel k : Nat)
    (s : AnalystState) (G rows : String)
    (hG : C.generate s.question s.schema_info s.error_message = G)
    (hok : C.execute (s.attempt_count + 1) G = ExecResult.ok rows) :
    runFrom C cfg (fuel + 1 + 1 + 1) k s Node.generate_sql =
      ([⟨Node.generate_sql,
          { s with sql_query := G, timestamp := C.clock k },
          Node.execute_sql⟩,
        ⟨Node.execute_sql,
          { s with
              sql_query := G
              attempt_count := s.attempt_count + 1
              query_result := rows
              error_message := ""
              timestamp := C.clock (k + 1) },
          Node.generate_explanation⟩,
        ⟨Node.generate_explanation,
          { s with
              sql_query := G
              attempt_count := s.attempt_count + 1
              query_result := rows
              error_message := ""
              explanation := C.explain s.question rows
              status := Status.success
              timestamp := C.clock (k + 2) },
          Node.done⟩],
       { s with
           sql_query := G
           attempt_count := s.attempt_count + 1
           query_result := rows
           error_message := ""
           explanation := C.explain s.question rows
           status := Status.success
           timestamp := C.clock (k + 2) },
       Node.done) := by
  subst hG
  rw [runFrom_step C cfg (fuel + 1 + 1) k s Node.generate_sql (by simp)]
  simp only [step]
  rw [runFrom_step C cfg (fuel + 1) (k + 1) _ Node.execute_sql (by simp)]
  simp only [step, hok]
  rw [runFrom_step C cfg fuel (k + 2) _ Node.generate_explanation (by simp)]
  simp only [step, runFrom_done]

theorem run4_stop (C : Collaborators) (cfg : Config) (fuel k : Nat)
    (s : AnalystState) (G msg : String)
    (hG : C.generate s.question s.schema_info s.error_message = G)
    (hf : C.execute (s.attempt_count + 1) G = ExecResult.fail msg)
    (hge : ¬ s.attempt_count + 1 < cfg.max_retries) :
    runFrom C cfg (fuel + 1 + 1 + 1 + 1) k s Node.generate_sql =
      ([⟨Node.generate_sql,
          { s with sql_query := G, timestamp := C.clock k },
          Node.execute_sql⟩,
        ⟨Node.execute_sql,
          { s with
              sql_query := G
              attempt_count := s.attempt_count + 1
              error_message := msg
              timestamp := C.clock (k + 1) },
          Node.analyze_error⟩,
        ⟨Node.analyze_error,
          { s with
              sql_query := G
              attempt_count := s.attempt_count + 1
              error_message := msg
              error_history := s.error_history ++ [msg]
              timestamp := C.clock (k + 2) },
          Node.handle_failure⟩,
        ⟨Node.handle_failure,
          { s with
              sql_query := G
              attempt_count := s.attempt_count + 1
              error_message := msg
              error_history := s.error_history ++ [msg]
              status := Status.failed
              timestamp := C.clock (k + 3) },
          Node.done⟩],
       { s with
           sql_query := G
           attempt_count := s.attempt_count + 1
           error_message := msg
           error_history := s.error_history ++ [msg]
           status := Status.failed
           timestamp := C.clock (k + 3) },
       Node.done) := by
  subst hG
  rw [runFrom_step C cfg (fuel + 1 + 1 + 1) k s Node.generate_sql (by simp)]
  simp only [step]
  rw [runFrom_step C cfg (fuel + 1 + 1) (k + 1) _ Node.execute_sql (by simp)]
  simp only [step, hf]
  rw [runFrom_step C cfg (fuel + 1) (k + 2) _ Node.analyze_error (by simp)]
  simp only [step, hge, if_false]
  rw [runFrom_step C cfg fuel (k + 3) _ Node.handle_failure (by simp)]
  simp only [step, runFrom_done]

theorem run3_cont (C : Collaborators) (cfg : Config) (fuel k : Nat)
    (s : AnalystState) (G msg : String)
    (hG : C.generate s.question s.schema_info s.error_message = G)
    (hf : C.execute (s.attempt_count + 1) G = ExecResult.fail msg)
    (hlt : s.attempt_count + 1 < cfg.max_retries) :
    runFrom C cfg (fuel + 1 + 1 + 1) k s Node.generate_sql =
      (⟨Node.generate_sql,
          { s with sql_query := G, timestamp := C.clock k },
          Node.execute_sql⟩ ::
        ⟨Node.execute_sql,
          { s with
              sql_query := G
              attempt_count := s.attempt_count + 1
              error_message := msg
              timestamp := C.clock (k + 1) },
          Node.analyze_error⟩ ::
        ⟨Node.analyze_error,
          { s with
              sql_query := G
              attempt_count := s.attempt_count + 1
              error_message := msg
              error_history := s.error_history ++ [msg]
              timestamp := C.clock (k + 2) },
          Node.generate_sql⟩ ::
        (runFrom C cfg fuel (k + 3)
          { s with
              sql_query := G
              attempt_count := s.attempt_count + 1
              error_message := msg
              error_history := s.error_history ++ [msg]
              timestamp := C.clock (k + 2) }
          Node.generate_sql).1,
       (runFrom C cfg fuel (k + 3)
          { s with
              sql_query := G
              attempt_count := s.attempt_count + 1
              error_message := msg
              error_history := s.error_history ++ [msg]
              timestamp := C.clock (k + 2) }
          Node.generate_sql).2) := by
  subst hG
  rw [runFrom_step C cfg (fuel + 1 + 1) k s Node.generate_sql (by simp)]
  simp only [step]
  rw [runFrom_step C cfg (fuel + 1) (k + 1) _ Node.execute_sql (by simp)]
  simp only [step, hf]
  rw [runFrom_step C cfg fuel (k + 2) _ Node.analyze_error (by simp)]
  simp only [step, hlt, if_true]

/-- The bundle of facts that hold for the loop portion of a session: it
starts at generate_sql in state s and runs to the terminal point, and the
final state, the event trace and the per-node contracts line up as the
spec requires. -/
structure LoopPost (C : Collaborators) (cfg : Config) (s : AnalystState)
    (r : List Event × AnalystState × Node) : Prop where
  done_reached : r.2.2 = Node.done
  question_eq : r.2.1.question = s.question
  attempt_gt : s.attempt_count < r.2.1.attempt_count
  attempt_le : r.2.1.attempt_count ≤ cfg.max_retries
  exec_count : s.attempt_count + (execSnaps r.1).length = r.2.1.attempt_count
  pending_mid : ∀ e ∈ r.1, e.snapshot.status ≠ Status.pending →
      e.snapshot = r.2.1
  last_event : ∃ l e, r.1 = l ++ [e] ∧ e.snapshot = r.2.1 ∧
      e.next = Node.done
  analyze_ok : ∀ e ∈ r.1, e.node = Node.analyze_error →
      e.snapshot.error_history.length = e.snapshot.attempt_count ∧
      (e.next = Node.generate_sql ↔
        e.snapshot.attempt_count < cfg.max_retries)
  terminal : r.2.1.status = Status.success ∨ r.2.1.status = Status.failed
  failed_case : r.2.1.status = Status.failed →
      r.2.1.attempt_count = cfg.max_retries ∧
      r.2.1.error_history = s.error_history ++ errMsgs (execSnaps r.1)
  success_case : r.2.1.status = Status.success →
      ∃ pre lastE, execSnaps r.1 = pre ++ [lastE] ∧
        lastE.error_message = "" ∧
        lastE.attempt_count = r.2.1.attempt_count ∧
        (∀ i t, pre[i]? = some t →
          t.attempt_count = s.attempt_count + 1 + i) ∧
        r.2.1.error_history = s.error_history ++ errMsgs pre ∧
        r.2.1.error_message = "" ∧
        C.execute r.2.1.attempt_count r.2.1.sql_query =
          ExecResult.ok r.2.1.query_result ∧
        r.2.1.explanation = C.explain r.2.1.question r.2.1.query_result

theorem cons3_concat {x y z : Event} {r l : List Event} {e : Event}
    (h : r = l ++ [e]) : x :: y :: z :: r = (x :: y :: z :: l) ++ [e] := by
  rw [h]; rfl

theorem execSnaps_gea (x y z : AnalystState) (r : List Event) :
    execSnaps
        ((⟨Node.generate_sql, x, Node.execute_sql⟩ : Event) ::
          (⟨Node.execute_sql, y, Node.analyze_error⟩ : Event) ::
          (⟨Node.analyze_error, z, Node.generate_sql⟩ : Event) :: r) =
      y :: execSnaps r := by
  simp [execSnaps]

theorem loop_master (C : Collaborators) (cfg : Config) :
    ∀ d k s, s.attempt_count + d = cfg.max_retries → 0 < d →
      s.status = Status.pending →
      s.error_history.length = s.attempt_count →
      LoopPost C cfg s (runFrom C cfg (3 * d + 1) k s Node.generate_sql) := by
  intro d
  induction d with
  | zero => intro k s hsum hd hst hlen; exact absurd hd (Nat.lt_irrefl 0)
  | succ d ih =>
      intro k s hsum hd hst hlen
      have harith : 3 * (d + 1) + 1 = 3 * d + 1 + 1 + 1 + 1 := by ring
      rw [harith]
      rcases hex : C.execute (s.attempt_count + 1)
          (C.generate s.question s.schema_info s.error_message)
        with rows | msg
      · -- the next execution attempt succeeds
        rw [run3_ok C cfg (3 * d + 1) k s _ rows rfl hex]
        refine
          { done_reached := rfl
            question_eq := rfl
            attempt_gt := Nat.lt_succ_self _
            attempt_le := by
              show s.attempt_count + 1 ≤ cfg.max_retries; omega
            exec_count := by simp [execSnaps]
            pending_mid := ?_
            last_event := ⟨[_, _], _, rfl, rfl, rfl⟩
            analyze_ok := ?_
            terminal := Or.inl rfl
            failed_case := by intro h; simp at h
            success_case := ?_ }
        · intro e he hne
          simp only [List.mem_cons, List.not_mem_nil, or_false] at he
          rcases he with rfl | rfl | rfl
          · exact absurd hst hne
          · exact absurd hst hne
          · rfl
        · intro e he hn
          simp only [List.mem_cons, List.not_mem_nil, or_false] at he
          rcases he with rfl | rfl | rfl <;> simp at hn
        · intro _
          refine ⟨[],
            { s with
                sql_query :=
                  C.generate s.question s.schema_info s.error_message
                attempt_count := s.attempt_count + 1
                query_result := rows
                error_message := ""
                timestamp := C.clock (k + 1) },
            by simp [execSnaps], rfl, rfl, by simp,
            by simp [errMsgs], rfl, hex, rfl⟩
      · -- the next execution attempt fails
        by_cases hlt : s.attempt_count + 1 < cfg.max_retries
        · -- retry budget remains: loop back to generate_sql
          rw [run3_cont C cfg (3 * d + 1) k s _ msg rfl hex hlt]
          have P := ih (k + 3)
            { s with
                sql_query :=
                  C.generate s.question s.schema_info s.error_message
                attempt_count := s.attempt_count + 1
                error_message := msg
                error_history := s.error_history ++ [msg]
                timestamp := C.clock (k + 2) }
            (by simp; omega) (by omega) hst (by simp [hlen])
          refine
            { done_reached := P.done_reached
              question_eq := P.question_eq
              attempt_gt := Nat.lt_of_succ_lt P.attempt_gt
              attempt_le := P.attempt_le
              exec_count := ?_
              pending_mid := ?_
              last_event := ?_
              analyze_ok := ?_
              terminal := P.terminal
              failed_case := ?_
              success_case := ?_ }
          · have h := P.exec_count
            simp only [execSnaps] at h ⊢
            simp at h ⊢
            omega
          · intro e he hne
            simp only [List.mem_cons] at he
            rcases he with rfl | rfl | rfl | he
            · exact absurd hst hne
            · exact absurd hst hne
            · exact absurd hst hne
            · exact P.pending_mid e he hne
          · obtain ⟨l, le, hl, h1, h2⟩ := P.last_event
            rw [hl, ← List.cons_append, ← List.cons_append,
              ← List.cons_append]
            exact ⟨_, le, rfl, h1, h2⟩
          · intro e he hn
            simp only [List.mem_cons] at he
            rcases he with rfl | rfl | rfl | he
            · simp at hn
            · simp at hn
            · exact ⟨by simp [hlen], by simp [hlt]⟩
            · exact P.analyze_ok e he hn
          · intro h
            obtain ⟨ha, hh⟩ := P.failed_case h
            refine ⟨ha, ?_⟩
            rw [hh]
            simp [execSnaps, errMsgs]
          · intro h
            obtain ⟨pre, lastE, hsp, hl1, hl2, hnum, hhist, herr, hexe,
              hexp⟩ := P.success_case h
            refine
              ⟨{ s with
                  sql_query :=
                    C.generate s.question s.schema_info s.error_message
                  attempt_count := s.attempt_count + 1
                  error_message := msg
                  timestamp := C.clock (k + 1) } :: pre,
               lastE, ?_, hl1, hl2, ?_, ?_, herr, hexe, hexp⟩
            · rw [execSnaps_gea, hsp, List.cons_append]
            · intro i t ht
              cases i with
              | zero =>
                  simp only [List.getElem?_cons_zero, Option.some.injEq]
                    at ht
                  rw [← ht]
              | succ j =>
                  simp only [List.getElem?_cons_succ] at ht
                  have := hnum j t ht
                  simp at this
                  omega
            · rw [hhist]
              simp [errMsgs]
        · -- retry budget exhausted: handle_failure
          rw [run4_stop C cfg (3 * d) k s _ msg rfl hex hlt]
          refine
            { done_reached := rfl
              question_eq := rfl
              attempt_gt := Nat.lt_succ_self _
              attempt_le := by
                show s.attempt_count + 1 ≤ cfg.max_retries; omega
              exec_count := by simp [execSnaps]
              pending_mid := ?_
              last_event := ⟨[_, _, _], _, rfl, rfl, rfl⟩
              analyze_ok := ?_
              terminal := Or.inr rfl
              failed_case := ?_
              success_case := by intro h; simp at h }
          · intro e he hne
            simp only [List.mem_cons, List.not_mem_nil, or_false] at he
            rcases he with rfl | rfl | rfl | rfl
            · exact absurd hst hne
            · exact absurd hst hne
            · exact absurd hst hne
            · rfl
          · intro e he hn
            simp only [List.mem_cons, List.not_mem_nil, or_false] at he
            rcases he with rfl | rfl | rfl | rfl
            · simp at hn
            · simp at hn
            · exact ⟨by simp [hlen], by simp [hlt]⟩
            · simp at hn
          · intro _
            exact ⟨by show s.attempt_count + 1 = cfg.max_retries; omega,
              by simp [execSnaps, errMsgs]⟩

theorem run_spec (C : Collaborators) (cfg : Config) (q : String)
    (hR : 0 < cfg.max_retries) :
    run C cfg q =
      ((⟨Node.init, initSnap C q, Node.generate_sql⟩ : Event) ::
        (runFrom C cfg (3 * cfg.max_retries + 1) 1 (initSnap C q)
          Node.generate_sql).1,
       (runFrom C cfg (3 * cfg.max_retries + 1) 1 (initSnap C q)
          Node.generate_sql).2) ∧
    LoopPost C cfg (initSnap C q)
      (runFrom C cfg (3 * cfg.max_retries + 1) 1 (initSnap C q)
        Node.generate_sql) := by
  have hpost := loop_master C cfg cfg.max_retries 1 (initSnap C q)
    (by simp [initSnap, initState]) hR (by simp [initSnap, initState])
    (by simp [initSnap, initState])
  refine ⟨?_, hpost⟩
  have hm := runFrom_mono C cfg (3 * cfg.max_retries + 1) 1 (initSnap C q)
    Node.generate_sql hpost.done_reached 1
  show runFrom C cfg (3 * cfg.max_retries + 2 + 1) 0 (initState q)
      Node.init = _
  rw [runFrom_step C cfg (3 * cfg.max_retries + 2) 0 (initState q)
    Node.init (by simp)]
  have hs : step C cfg 0 (initState q) Node.init =
      (initSnap C q, Node.generate_sql) := rfl
  rw [hs]
  rw [show (3 * cfg.max_retries + 2) = (3 * cfg.max_retries + 1) + 1
    from rfl, hm]

theorem execSnaps_skip (e : Event) (r : List Event)
    (h : ¬ e.node = Node.execute_sql) :
    execSnaps (e :: r) = execSnaps r := by
  simp [execSnaps, h]

/-- Claim C1: every session runs to completion with a final attempt count
between 1 and max_retries inclusive, the Execution Engine is invoked
exactly attempt_count times, hence at most max_retries times, and whenever
analyze_error decides about a retry the error of the current attempt has
already been recorded: the snapshot at that event carries one history
entry per attempt made, and the node loops back to generate_sql exactly
when the attempt count is still below the bound. -/
theorem analyst_attempt_bound (C : Collaborators) (cfg : Config)
    (q : String) (hR : 0 < cfg.max_retries) :
    (1 ≤ (run C cfg q).2.1.attempt_count ∧
      (run C cfg q).2.1.attempt_count ≤ cfg.max_retries) ∧
    (execSnaps (run C cfg q).1).length = (run C cfg q).2.1.attempt_count ∧
    (∀ e ∈ (run C cfg q).1, e.node = Node.analyze_error →
      e.snapshot.error_history.length = e.snapshot.attempt_count ∧
      (e.next = Node.generate_sql ↔
        e.snapshot.attempt_count < cfg.max_retries)) := by
  obtain ⟨hrun, P⟩ := run_spec C cfg q hR
  have hfin : (run C cfg q).2 =
      (runFrom C cfg (3 * cfg.max_retries + 1) 1 (initSnap C q)
        Node.generate_sql).2 := by rw [hrun]
  have hevs : (run C cfg q).1 =
      (⟨Node.init, initSnap C q, Node.generate_sql⟩ : Event) ::
        (runFrom C cfg (3 * cfg.max_retries + 1) 1 (initSnap C q)
          Node.generate_sql).1 := by rw [hrun]
  have h0 : (initSnap C q).attempt_count = 0 := rfl
  have hgt := P.attempt_gt
  have hc := P.exec_count
  rw [h0] at hgt hc
  refine ⟨⟨?_, ?_⟩, ?_, ?_⟩
  · rw [hfin]; omega
  · rw [hfin]; exact P.attempt_le
  · rw [hfin, hevs, execSnaps_skip _ _ (by simp)]
    omega
  · intro e he hn
    rw [hevs] at he
    rcases List.mem_cons.mp he with rfl | he
    · exact absurd hn (by simp)
    · exact P.analyze_ok e he hn

/-- Claim C2: a session that ends failed has recorded exactly one error
per exhausted attempt: the error history has length max_retries and the
attempt count equals max_retries. -/
theorem analyst_failed_exhausts (C : Collaborators) (cfg : Config)
    (q : String) (hR : 0 < cfg.max_retries) :
    (run C cfg q).2.1.status = Status.failed →
      (run C cfg q).2.1.error_history.length = cfg.max_retries ∧
      (run C cfg q).2.1.attempt_count = cfg.max_retries := by
  obtain ⟨hrun, P⟩ := run_spec C cfg q hR
  have hfin : (run C cfg q).2 =
      (runFrom C cfg (3 * cfg.max_retries + 1) 1 (initSnap C q)
        Node.generate_sql).2 := by rw [hrun]
  rw [hfin]
  intro h
  obtain ⟨ha, hh⟩ := P.failed_case h
  refine ⟨?_, ha⟩
  rw [hh, show (initSnap C q).error_history = [] from rfl]
  simp only [List.nil_append, errMsgs, List.length_map]
  have hc := P.exec_count
  rw [show (initSnap C q).attempt_count = 0 from rfl] at hc
  omega

/-- Claim C3: a session that ends success after its final attempt has an
error history holding exactly the error messages of the attempts strictly
before the successful one, in chronological order: the engine snapshots
split into the failing prefix and the final successful attempt, the
history is the message list of that prefix, the prefix snapshots carry
attempt numbers one up to the final count minus one, and the successful
snapshot carries the final attempt number and an empty error; in
particular a first-attempt success leaves the history empty. -/
theorem analyst_success_history (C : Collaborators) (cfg : Config)
    (q : String) (hR : 0 < cfg.max_retries) :
    (run C cfg q).2.1.status = Status.success →
      ∃ pre lastE,
        execSnaps (run C cfg q).1 = pre ++ [lastE] ∧
        (run C cfg q).2.1.error_history = errMsgs pre ∧
        pre.length + 1 = (run C cfg q).2.1.attempt_count ∧
        (∀ i t, pre[i]? = some t → t.attempt_count = i + 1) ∧
        lastE.attempt_count = (run C cfg q).2.1.attempt_count ∧
        lastE.error_message = "" := by
  obtain ⟨hrun, P⟩ := run_spec C cfg q hR
  have hfin : (run C cfg q).2 =
      (runFrom C cfg (3 * cfg.max_retries + 1) 1 (initSnap C q)
        Node.generate_sql).2 := by rw [hrun]
  have hevs : (run C cfg q).1 =
      (⟨Node.init, initSnap C q, Node.generate_sql⟩ : Event) ::
        (runFrom C cfg (3 * cfg.max_retries + 1) 1 (initSnap C q)
          Node.generate_sql).1 := by rw [hrun]
  rw [hfin, hevs]
  intro h
  obtain ⟨pre, lastE, hsp, hl1, hl2, hnum, hhist, herr, hexe, hexpl⟩ :=
    P.success_case h
  have hc := P.exec_count
  rw [show (initSnap C q).attempt_count = 0 from rfl, hsp] at hc
  simp only [List.length_append, List.length_singleton] at hc
  refine ⟨pre, lastE, ?_, ?_, by omega, ?_, hl2, hl1⟩
  · rw [execSnaps_skip _ _ (by simp)]
    exact hsp
  · rw [hhist, show (initSnap C q).error_history = [] from rfl]
    simp
  · intro i t ht
    have := hnum i t ht
    rw [show (initSnap C q).attempt_count = 0 from rfl] at this
    omega

/-- Claim C7: for every behavior of the external collaborators the state
machine reaches the terminal point after finitely many transitions: the
run ends at the done node with a terminal status, and the event trace is a
finite list of length at most the fuel bound. -/
theorem analyst_terminates (C : Collaborators) (cfg : Config)
    (q : String) (hR : 0 < cfg.max_retries) :
    (run C cfg q).2.2 = Node.done ∧
    ((run C cfg q).2.1.status = Status.success ∨
      (run C cfg q).2.1.status = Status.failed) ∧
    (run C cfg q).1.length ≤ fuelFor cfg := by
  obtain ⟨hrun, P⟩ := run_spec C cfg q hR
  have hfin : (run C cfg q).2 =
      (runFrom C cfg (3 * cfg.max_retries + 1) 1 (initSnap C q)
        Node.generate_sql).2 := by rw [hrun]
  refine ⟨by rw [hfin]; exact P.done_reached,
    by rw [hfin]; exact P.terminal, ?_⟩
  exact runFrom_len C cfg (fuelFor cfg) 0 (initState q) Node.init

/-- Claim C4: in every reachable Execution State whose status is success
the result is non-empty, the explanation is non-empty and the error is
empty, assuming the collaborators are well formed in the sense of the
interface contract: the engine returns non-empty result payloads and the
Explanation Generator returns non-empty text. -/
theorem analyst_success_invariant (C : Collaborators) (cfg : Config)
    (q : String) (hR : 0 < cfg.max_retries)
    (hok : ∀ a t r, C.execute a t = ExecResult.ok r → r ≠ "")
    (hexp : ∀ a b, C.explain a b ≠ "") :
    (∀ e ∈ (run C cfg q).1, e.snapshot.status = Status.success →
      e.snapshot.query_result ≠ "" ∧ e.snapshot.explanation ≠ "" ∧
      e.snapshot.error_message = "") ∧
    ((run C cfg q).2.1.status = Status.success →
      (run C cfg q).2.1.query_result ≠ "" ∧
      (run C cfg q).2.1.explanation ≠ "" ∧
      (run C cfg q).2.1.error_message = "") := by
  obtain ⟨hrun, P⟩ := run_spec C cfg q hR
  have hfin : (run C cfg q).2 =
      (runFrom C cfg (3 * cfg.max_retries + 1) 1 (initSnap C q)
        Node.generate_sql).2 := by rw [hrun]
  have hevs : (run C cfg q).1 =
      (⟨Node.init, initSnap C q, Node.generate_sql⟩ : Event) ::
        (runFrom C cfg (3 * cfg.max_retries + 1) 1 (initSnap C q)
          Node.generate_sql).1 := by rw [hrun]
  have hmain : (runFrom C cfg (3 * cfg.max_retries + 1) 1 (initSnap C q)
        Node.generate_sql).2.1.status = Status.success →
      (runFrom C cfg (3 * cfg.max_retries + 1) 1 (initSnap C q)
        Node.generate_sql).2.1.query_result ≠ "" ∧
      (runFrom C cfg (3 * cfg.max_retries + 1) 1 (initSnap C q)
        Node.generate_sql).2.1.explanation ≠ "" ∧
      (runFrom C cfg (3 * cfg.max_retries + 1) 1 (initSnap C q)
        Node.generate_sql).2.1.error_message = "" := by
    intro h
    obtain ⟨pre, lastE, hsp, hl1, hl2, hnum, hhist, herr, hexe, hexpl⟩ :=
      P.success_case h
    exact ⟨hok _ _ _ hexe, by rw [hexpl]; exact hexp _ _, herr⟩
  constructor
  · intro e he hs
    rw [hevs] at he
    rcases List.mem_cons.mp he with rfl | he
    · exact Status.noConfusion hs
    · have hne : e.snapshot.status ≠ Status.pending := by
        rw [hs]; exact fun hcon => Status.noConfusion hcon
      have heq := P.pending_mid e he hne
      rw [heq] at hs ⊢
      exact hmain hs
  · rw [hfin]; exact hmain

/-- Claim C5: the analyze_error step always appends the current error to
the error history and then branches on the retry bound, looping back to
generate_sql exactly when the attempt count is below max_retries and
moving to handle_failure otherwise; it is the only node whose step touches
the error history and the only node whose step depends on the configured
bound at all. -/
theorem analyze_error_contract (C : Collaborators) (cfg cfg2 : Config)
    (k : Nat) (s : AnalystState) :
    (step C cfg k s Node.analyze_error).1.error_history =
      s.error_history ++ [s.error_message] ∧
    ((step C cfg k s Node.analyze_error).2 = Node.generate_sql ↔
      s.attempt_count < cfg.max_retries) ∧
    ((step C cfg k s Node.analyze_error).2 = Node.handle_failure ↔
      ¬ s.attempt_count < cfg.max_retries) ∧
    (∀ n, n ≠ Node.analyze_error →
      (step C cfg k s n).1.error_history = s.error_history) ∧
    (∀ n, n ≠ Node.analyze_error → step C cfg k s n = step C cfg2 k s n) := by
  refine ⟨?_, ?_, ?_, ?_, ?_⟩
  · by_cases h : s.attempt_count < cfg.max_retries <;> simp [step, h]
  · by_cases h : s.attempt_count < cfg.max_retries <;> simp [step, h]
  · by_cases h : s.attempt_count < cfg.max_retries <;> simp [step, h]
  · intro n hn
    cases n
    case analyze_error => exact absurd rfl hn
    case execute_sql =>
      rcases hE : C.execute (s.attempt_count + 1) s.sql_query with r | m <;>
        simp [step, hE]
    all_goals simp [step]
  · intro n hn
    cases n
    case analyze_error => exact absurd rfl hn
    all_goals rfl

/-- Claim C6: once the status becomes terminal no later step mutates any
field: within the run trace every event whose snapshot has left the
pending status is the final snapshot itself, and continuing the machine
from the completed configuration for any amount of fuel produces no
further events and leaves the state untouched. -/
theorem terminal_frozen (C : Collaborators) (cfg : Config) (q : String)
    (hR : 0 < cfg.max_retries) :
    (∀ e ∈ (run C cfg q).1, e.snapshot.status ≠ Status.pending →
      e.snapshot = (run C cfg q).2.1) ∧
    (∀ fuel k, runFrom C cfg fuel k (run C cfg q).2.1 (run C cfg q).2.2 =
      ([], (run C cfg q).2.1, (run C cfg q).2.2)) := by
  obtain ⟨hrun, P⟩ := run_spec C cfg q hR
  have hfin : (run C cfg q).2 =
      (runFrom C cfg (3 * cfg.max_retries + 1) 1 (initSnap C q)
        Node.generate_sql).2 := by rw [hrun]
  have hevs : (run C cfg q).1 =
      (⟨Node.init, initSnap C q, Node.generate_sql⟩ : Event) ::
        (runFrom C cfg (3 * cfg.max_retries + 1) 1 (initSnap C q)
          Node.generate_sql).1 := by rw [hrun]
  constructor
  · intro e he hne
    rw [hevs] at he
    rcases List.mem_cons.mp he with rfl | he
    · exact absurd rfl hne
    · rw [hfin]
      exact P.pending_mid e he hne
  · intro fuel k
    have hd : (run C cfg q).2.2 = Node.done := by
      rw [hfin]; exact P.done_reached
    rw [hd]
    exact runFrom_done C cfg fuel k (run C cfg q).2.1

theorem run_checkpoints_getLast (C : Collaborators) (cfg : Config)
    (q : String) (hR : 0 < cfg.max_retries) :
    (checkpoints (run C cfg q).1).getLast? =
      some ((run C cfg q).2.1, Node.done) := by
  obtain ⟨hrun, P⟩ := run_spec C cfg q hR
  have hfin : (run C cfg q).2 =
      (runFrom C cfg (3 * cfg.max_retries + 1) 1 (initSnap C q)
        Node.generate_sql).2 := by rw [hrun]
  obtain ⟨l, le, hl, h1, h2⟩ := P.last_event
  have hevs : (run C cfg q).1 =
      ((⟨Node.init, initSnap C q, Node.generate_sql⟩ : Event) :: l) ++
        [le] := by
    rw [hrun, hl]; rfl
  rw [hevs]
  simp only [checkpoints, List.map_append, List.map_cons, List.map_nil]
  rw [List.getLast?_concat]
  rw [h1, h2, hfin]

/-- Claim C8: replay is deterministic: the final checkpoint of a completed
session carries exactly the live final state, and restarting the machine
from the state and pending node recorded at any checkpoint, with the same
collaborators, reproduces exactly the remaining event trajectory and the
same final configuration. -/
theorem replay_deterministic (C : Collaborators) (cfg : Config)
    (q : String) (hR : 0 < cfg.max_retries) :
    (checkpoints (run C cfg q).1).getLast? =
      some ((run C cfg q).2.1, Node.done) ∧
    (∀ i e, (run C cfg q).1[i]? = some e →
      runFrom C cfg (fuelFor cfg - (i + 1)) (i + 1) e.snapshot e.next =
        ((run C cfg q).1.drop (i + 1), (run C cfg q).2)) := by
  refine ⟨run_checkpoints_getLast C cfg q hR, ?_⟩
  intro i e he
  have h := runFrom_resume C cfg (fuelFor cfg) 0 (initState q) Node.init
    i e he
  simpa using h

/-- Claim C9: the Orchestrator produces exactly one checkpoint and one
step event per node visited, in traversal order: the checkpoint list is
the event list pointwise, pairing each resulting snapshot with the node
that will execute next, consecutive events chain (each event's next node
is the node of the following event), the first event is the entry node,
and the last event hands over to the terminal point carrying the final
state. -/
theorem checkpoint_per_node (C : Collaborators) (cfg : Config)
    (q : String) (hR : 0 < cfg.max_retries) :
    (checkpoints (run C cfg q).1).length = (run C cfg q).1.length ∧
    (∀ (i : Nat), (checkpoints (run C cfg q).1)[i]? =
      ((run C cfg q).1[i]?).map (fun (e : Event) => (e.snapshot, e.next))) ∧
    (∀ i e1 e2, (run C cfg q).1[i]? = some e1 →
      (run C cfg q).1[i + 1]? = some e2 → e1.next = e2.node) ∧
    ((run C cfg q).1[0]?).map Event.node = some Node.init ∧
    (∃ l e, (run C cfg q).1 = l ++ [e] ∧ e.next = Node.done ∧
      e.snapshot = (run C cfg q).2.1) := by
  obtain ⟨hrun, P⟩ := run_spec C cfg q hR
  have hfin : (run C cfg q).2 =
      (runFrom C cfg (3 * cfg.max_retries + 1) 1 (initSnap C q)
        Node.generate_sql).2 := by rw [hrun]
  have hevs : (run C cfg q).1 =
      (⟨Node.init, initSnap C q, Node.generate_sql⟩ : Event) ::
        (runFrom C cfg (3 * cfg.max_retries + 1) 1 (initSnap C q)
          Node.generate_sql).1 := by rw [hrun]
  refine ⟨by simp [checkpoints],
    by intro i; simp [checkpoints, List.getElem?_map], ?_, ?_, ?_⟩
  · intro i e1 e2 h1 h2
    exact runFrom_chain C cfg (fuelFor cfg) 0 (initState q) Node.init i
      e1 e2 h1 h2
  · rw [hevs]; rfl
  · obtain ⟨l, le, hl, h1, h2⟩ := P.last_event
    refine ⟨(⟨Node.init, initSnap C q, Node.generate_sql⟩ : Event) :: l,
      le, ?_, h2, ?_⟩
    · rw [hevs, hl]; rfl
    · rw [hfin]; exact h1

/-- Claim C10: the checkpoint history returned by the state history
accessor is ordered newest first: its head is the final checkpoint,
reversing it recovers the checkpoints in execution order, and the
reversed sequence agrees pointwise with the event trace, each entry
carrying the state values together with the node that will execute
next. -/
theorem history_newest_first (C : Collaborators) (cfg : Config)
    (q : String) (hR : 0 < cfg.max_retries) :
    (get_state_history C cfg q).reverse = checkpoints (run C cfg q).1 ∧
    (get_state_history C cfg q).head? =
      some ((run C cfg q).2.1, Node.done) ∧
    (∀ (i : Nat), ((get_state_history C cfg q).reverse)[i]? =
      ((run C cfg q).1[i]?).map (fun (e : Event) => (e.snapshot, e.next))) := by
  refine ⟨by simp [get_state_history], ?_, ?_⟩
  · rw [show get_state_history C cfg q =
      (checkpoints (run C cfg q).1).reverse from rfl]
    rw [List.head?_reverse]
    exact run_checkpoints_getLast C cfg q hR
  · intro i
    rw [show (get_state_history C cfg q).reverse =
      checkpoints (run C cfg q).1 from by simp [get_state_history]]
    simp [checkpoints, List.getElem?_map]

/-- A collaborator bundle whose engine always succeeds. -/
def okCollab : Collaborators :=
  { describe_schema := "table sales"
    generate := fun _ _ _ => "SELECT total FROM sales"
    execute := fun _ _ => ExecResult.ok "42"
    explain := fun _ _ => "the total revenue is 42"
    clock := fun _ => "t" }

/-- A collaborator bundle whose engine always fails. -/
def failCollab : Collaborators :=
  { describe_schema := "table sales"
    generate := fun _ _ _ => "SELECT bogus FROM sales"
    execute := fun _ _ => ExecResult.fail "no such column bogus"
    explain := fun _ _ => "unreachable"
    clock := fun _ => "t" }

/-- A collaborator bundle whose engine fails on the first two attempts and
succeeds on the third. -/
def mixedCollab : Collaborators :=
  { describe_schema := "table sales"
    generate := fun _ _ _ => "SELECT total FROM sales"
    execute := fun a _ =>
      if a < 3 then ExecResult.fail "no such column" else ExecResult.ok "42"
    explain := fun _ _ => "the total revenue is 42"
    clock := fun _ => "t" }

/-- The default configuration of the spec, three retries. -/
def cfg3 : Config := { max_retries := 3 }

/-- A one-retry configuration. -/
def cfg1 : Config := { max_retries := 1 }

theorem analyst_attempt_bound_witness :
    0 < cfg3.max_retries ∧
    (1 ≤ (run okCollab cfg3 "q1").2.1.attempt_count ∧
      (run okCollab cfg3 "q1").2.1.attempt_count ≤ cfg3.max_retries) ∧
    (execSnaps (run okCollab cfg3 "q1").1).length =
      (run okCollab cfg3 "q1").2.1.attempt_count :=
  ⟨by decide, (analyst_attempt_bound okCollab cfg3 "q1" (by decide)).1,
   (analyst_attempt_bound okCollab cfg3 "q1" (by decide)).2.1⟩

theorem analyst_failed_exhausts_witness :
    0 < cfg3.max_retries ∧
    (run failCollab cfg3 "q2").2.1.error_history.length =
      cfg3.max_retries ∧
    (run failCollab cfg3 "q2").2.1.attempt_count = cfg3.max_retries :=
  ⟨by decide,
   (analyst_failed_exhausts failCollab cfg3 "q2" (by decide) (by decide)).1,
   (analyst_failed_exhausts failCollab cfg3 "q2" (by decide)
     (by decide)).2⟩

theorem analyst_success_history_witness :
    0 < cfg3.max_retries ∧
    (∃ pre lastE,
        execSnaps (run mixedCollab cfg3 "q3").1 = pre ++ [lastE] ∧
        (run mixedCollab cfg3 "q3").2.1.error_history = errMsgs pre ∧
        pre.length + 1 = (run mixedCollab cfg3 "q3").2.1.attempt_count ∧
        (∀ i t, pre[i]? = some t → t.attempt_count = i + 1) ∧
        lastE.attempt_count = (run mixedCollab cfg3 "q3").2.1.attempt_count ∧
        lastE.error_message = "") :=
  ⟨by decide,
   analyst_success_history mixedCollab cfg3 "q3" (by decide) (by decide)⟩

theorem analyst_success_invariant_witness :
    0 < cfg3.max_retries ∧
    (run okCollab cfg3 "q4").2.1.query_result ≠ "" ∧
    (run okCollab cfg3 "q4").2.1.explanation ≠ "" ∧
    (run okCollab cfg3 "q4").2.1.error_message = "" :=
  ⟨by decide,
   (analyst_success_invariant okCollab cfg3 "q4" (by decide)
     (by
       intro a t r h
       simp only [okCollab] at h
       injection h with h2
       subst h2
       decide)
     (by intro a b; simp only [okCollab]; decide)).2 (by decide)⟩

theorem analyze_error_contract_witness :
    (step okCollab cfg3 0 (initState "q5")
        Node.generate_sql).1.error_history =
      (initState "q5").error_history :=
  (analyze_error_contract okCollab cfg3 cfg1 0 (initState "q5")).2.2.2.1
    Node.generate_sql (by decide)

theorem terminal_frozen_witness :
    0 < cfg3.max_retries ∧
    (∀ fuel k, runFrom okCollab cfg3 fuel k
        (run okCollab cfg3 "q6").2.1 (run okCollab cfg3 "q6").2.2 =
      ([], (run okCollab cfg3 "q6").2.1, (run okCollab cfg3 "q6").2.2)) :=
  ⟨by decide, (terminal_frozen okCollab cfg3 "q6" (by decide)).2⟩

theorem analyst_terminates_witness :
    0 < cfg3.max_retries ∧
    (run failCollab cfg3 "q7").2.2 = Node.done ∧
    (run failCollab cfg3 "q7").1.length ≤ fuelFor cfg3 :=
  ⟨by decide, (analyst_terminates failCollab cfg3 "q7" (by decide)).1,
   (analyst_terminates failCollab cfg3 "q7" (by decide)).2.2⟩

theorem replay_deterministic_witness :
    0 < cfg3.max_retries ∧
    (checkpoints (run okCollab cfg3 "q8").1).getLast? =
      some ((run okCollab cfg3 "q8").2.1, Node.done) :=
  ⟨by decide, (replay_deterministic okCollab cfg3 "q8" (by decide)).1⟩

theorem checkpoint_per_node_witness :
    0 < cfg3.max_retries ∧
    (checkpoints (run okCollab cfg3 "q9").1).length =
      (run okCollab cfg3 "q9").1.length ∧
    ((run okCollab cfg3 "q9").1[0]?).map Event.node = some Node.init :=
  ⟨by decide, (checkpoint_per_node okCollab cfg3 "q9" (by decide)).1,
   (checkpoint_per_node okCollab cfg3 "q9" (by decide)).2.2.2.1⟩

theorem history_newest_first_witness :
    0 < cfg3.max_retries ∧
    (get_state_history okCollab cfg3 "qA").head? =
      some ((run okCollab cfg3 "qA").2.1, Node.done) :=
  ⟨by decide, (history_newest_first okCollab cfg3 "qA" (by decide)).2.1⟩

end SQLAnalyst
